import Mathlib

/-!
Shallow embedding of the InWeCrypto `cryptox` repository (Go) and proofs
about its NEO transaction engine (`neo/rpc.go`, reproduced in
`src/neo/rpc_test.go`) and its web3 keystore codec
(`src/keystore/web3keystore.go`).

Modelling conventions:
* Go byte slices are `List Nat`, each entry intended `< 256`; where a result
  depends on values really being bytes, a theorem carries that bound as a
  hypothesis.
* NEO asset amounts travel through the Go code as `float64` values obtained by
  parsing decimal strings; they are modelled as exact rationals (`ℚ`).  The
  comparisons and subtractions the claims exercise (`0.5`, `0.7`, `1.0`,
  `1.2`) are exact in both settings.
* External cryptographic primitives (scrypt, PBKDF2, keccak-256, the AES-CTR
  keystream) live in external libraries; they enter the embedding as explicit
  function parameters bundled in `CryptoPrims`, so every theorem quantifies
  over them and holds in particular for the real primitives.
-/

/-- Hex digit characters, lowercase, as produced by Go `hex.EncodeToString`. -/
def hexDigitChar (n : Nat) : Char :=
  if n < 10 then Char.ofNat (48 + n) else Char.ofNat (87 + n)

/-- Byte list to hex character list, two lowercase digits per byte
(Go `hex.EncodeToString`). -/
def hexEncodeChars : List Nat → List Char
  | [] => []
  | b :: rest => hexDigitChar (b / 16) :: hexDigitChar (b % 16) :: hexEncodeChars rest

/-- Go `hex.EncodeToString`. -/
def hexEncode (bs : List Nat) : String :=
  String.mk (hexEncodeChars bs)

/-- Value of one hex digit character; `none` on a non-hex character
(Go `hex.DecodeString` accepts both cases). -/
def hexDigitVal (c : Char) : Option Nat :=
  if 48 ≤ c.toNat ∧ c.toNat ≤ 57 then some (c.toNat - 48)
  else if 97 ≤ c.toNat ∧ c.toNat ≤ 102 then some (c.toNat - 87)
  else if 65 ≤ c.toNat ∧ c.toNat ≤ 70 then some (c.toNat - 55)
  else none

/-- Go `hex.DecodeString` on a character list: `none` on odd length or a
non-hex character, otherwise the byte list. -/
def hexDecodeChars : List Char → Option (List Nat)
  | [] => some []
  | [_] => none
  | c1 :: c2 :: rest =>
    match hexDigitVal c1, hexDigitVal c2, hexDecodeChars rest with
    | some h, some l, some bs => some ((16 * h + l) :: bs)
    | _, _, _ => none

/-- Go `hex.DecodeString`. -/
def hexDecode (s : String) : Option (List Nat) :=
  hexDecodeChars s.toList

/-! ## NEO transaction engine (`src/neo/rpc_test.go`, inlined copy of `neo/rpc.go`) -/

/-- Unspent output as supplied by the external `neogo` RPC client: source
transaction id, output index (`Vout.N`), asset amount, and the block height at
which the output was spent (`SpentBlock`).  `neogo` stores the amount as a
decimal string and parses it in `Value()`; the parsed amount is carried here
directly as a rational, so the parse-error branch of `Value()` (external
library code) is not modelled. -/
structure UTXO where
  transactionID : String
  vout : Nat
  value : ℚ
  spentBlock : Nat
deriving DecidableEq

/-- Result of `sort.Sort(utxoSorter(unspent))`: ascending by `Value()`
(`utxoSorter.Less` compares the parsed values with `<`).  Go's sort reorders
the caller's slice in place; the embedding passes the reordered list around
explicitly.  Go's sort is unstable, so the order of equal-valued entries is
implementation defined; the embedding fixes the stable insertion-sort order. -/
def sortByValue (l : List UTXO) : List UTXO :=
  List.insertionSort (fun a b => a.value ≤ b.value) l

/-- Result of `sort.Sort(claimSorter(unspent))`: ascending by `SpentBlock`. -/
def sortBySpentBlock (l : List UTXO) : List UTXO :=
  List.insertionSort (fun a b => a.spentBlock ≤ b.spentBlock) l

/-- Loop body of `CalcTxInput`: appends each output to `selected` and then
ASSIGNS (not accumulates) `vinvalue, err = utxo.Value()`, returning as soon as
`vinvalue > amount`; falling off the loop returns the last assigned value. -/
def calcTxInputLoop (amount : ℚ) : List UTXO → List UTXO → ℚ → List UTXO × ℚ
  | [], selected, vinvalue => (selected, vinvalue)
  | utxo :: rest, selected, _ =>
    if utxo.value > amount then (selected ++ [utxo], utxo.value)
    else calcTxInputLoop amount rest (selected ++ [utxo]) utxo.value

/-- Go `CalcTxInput(amount, unspent)`: sorts the (caller's) slice ascending by
value, then runs the selection loop over the sorted slice starting from an
empty selection and `vinvalue = 0`.  The `error` component of the Go signature
is only ever set by `Value()` parse failures, which are not modelled (the
amount is already a rational here). -/
def CalcTxInput (amount : ℚ) (unspent : List UTXO) : List UTXO × ℚ :=
  calcTxInputLoop amount (sortByValue unspent) [] 0

/-- The caller-visible state of the `unspent` slice after `CalcTxInput`
returns: `sort.Sort(utxoSorter(unspent))` has reordered it in place. -/
def CalcTxInputPost (_amount : ℚ) (unspent : List UTXO) : List UTXO :=
  sortByValue unspent

/-- The caller-visible state of the `unspent` slice after `CreateClaimTx`
returns: `sort.Sort(claimSorter(unspent))` has reordered it in place. -/
def CreateClaimTxPost (unspent : List UTXO) : List UTXO :=
  sortBySpentBlock unspent

/-- Transaction-type byte `ContractTransaction = 0x80`. -/
def ContractTransaction : Nat := 0x80

/-- Transaction-type byte `ClaimTransaction = 0x02`. -/
def ClaimTransaction : Nat := 0x02

/-- The GAS asset id constant `GasAssert`. -/
def GasAssert : String :=
  "602c79718b16e442de58778e148d0b1084e3b2dffd5de6b7b16cee7969282de7"

/-- Go `RawTxInput`: transaction id (hex string, optionally `0x`-prefixed) and
`uint16` output index (`Vout < 2^16`, carried as a `Nat`). -/
structure RawTxInput where
  TxID : String
  Vout : Nat
deriving DecidableEq

/-- Go `RawTxOutput`: asset id hex string, amount, destination address. -/
structure RawTxOutput where
  AssertID : String
  Value : ℚ
  Address : String
deriving DecidableEq

/-- Go `RawTxAttr`. -/
structure RawTxAttr where
  Usage : Nat
  Data : List Nat
deriving DecidableEq

/-- Go `RawTx`, restricted to the data fields the claims observe.  The Go
struct's `Type` field is spelled `TxType` (`Type` is reserved in Lean); the
`XData` closure and the post-signing `Scripts` list play no role in the
claims and are omitted. -/
structure RawTx where
  TxType : Nat
  Version : Nat
  Attributes : List RawTxAttr
  Inputs : List RawTxInput
  Outputs : List RawTxOutput
deriving DecidableEq

/-- Go `NewRawTx(txType)`: type byte as given, version 0, everything empty. -/
def NewRawTx (txType : Nat) : RawTx :=
  { TxType := txType, Version := 0, Attributes := [], Inputs := [], Outputs := [] }

/-- Error value `ErrNoUTXO` (`"no enough utxo"`). -/
inductive NeoError
  | noUTXO
deriving DecidableEq

/-- Go `CreateSendAssertTx(assert, from, to, amount, unspent)`: runs
`CalcTxInput`, fails with `ErrNoUTXO` when the returned total is below
`amount`, otherwise builds a `ContractTransaction` whose inputs are the
selected outputs (ids as given, `Vout.N` truncated to `uint16`), with a payment
output of `amount` to `to`, plus a change output `totalAmount - amount` back to
`from` exactly when `totalAmount > amount`.  The Go code calls `CalcTxInput`
once and reuses its two results; `CalcTxInput` is pure here, so the repeated
applications below denote that single call. -/
def CreateSendAssertTx (assert fromAddr toAddr : String) (amount : ℚ)
    (unspent : List UTXO) : Except NeoError RawTx :=
  if (CalcTxInput amount unspent).2 < amount then Except.error NeoError.noUTXO
  else Except.ok
    { TxType := ContractTransaction
      Version := 0
      Attributes := []
      Inputs := (CalcTxInput amount unspent).1.map
        (fun u => { TxID := u.transactionID, Vout := u.vout % 65536 })
      Outputs := [{ AssertID := assert, Value := amount, Address := toAddr }] ++
        (if (CalcTxInput amount unspent).2 > amount then
          [{ AssertID := assert, Value := (CalcTxInput amount unspent).2 - amount,
             Address := fromAddr }]
        else []) }

/-- Go `CreateClaimTx(val, address, unspent)`: sorts the caller's slice by
`SpentBlock`, claims every output unconditionally (ids as given, `Vout.N`
truncated to `uint16`), and adds a single GAS output of `val` to `address`.
The claim records live in the embedded `RawClaimTx.Claims` list (serialized by
the `XData` closure); they are returned here as the second component. -/
def CreateClaimTx (val : ℚ) (address : String) (unspent : List UTXO) :
    RawTx × List RawTxInput :=
  ({ NewRawTx ClaimTransaction with
      Outputs := [{ AssertID := GasAssert, Value := val, Address := address }] },
   (sortBySpentBlock unspent).map
     (fun u => { TxID := u.transactionID, Vout := u.vout % 65536 }))

/-- Go `strings.TrimPrefix(s, "0x")`. -/
def strip0x (s : String) : String :=
  match s.toList with
  | '0' :: 'x' :: rest => String.mk rest
  | _ => s

/-- Two-byte little-endian encoding written by `binary.LittleEndian.PutUint16`. -/
def putUint16LE (v : Nat) : List Nat :=
  [v % 256, v / 256 % 256]

/-- Go `RawTxInput.WriteBytes`: hex-decode the id after trimming an optional
`0x`, write the decoded bytes reversed (`reverseBytes`), then the 2-byte
little-endian `Vout`.  `none` models the hex-decode error return. -/
def RawTxInput.WriteBytes (input : RawTxInput) : Option (List Nat) :=
  match hexDecode (strip0x input.TxID) with
  | none => none
  | some data => some (data.reverse ++ putUint16LE input.Vout)

/-! ## Web3 keystore codec (`src/keystore/web3keystore.go`) -/

/-- The external cryptographic primitives consumed by the keystore codec:
`golang.org/x/crypto/scrypt.Key`, `golang.org/x/crypto/pbkdf2.Key` with
SHA-256, the keccak-256 hash (`cryptox/sha3`), and the AES-CTR keystream
underlying `cipher.NewCTR` (a function of the AES key, the IV and the byte
position; `XORKeyStream` xors the text against it).  They are parameters of
the embedding, so every theorem quantifies over them and holds in particular
for the real primitives; theorems that depend on outputs being bytes or on
`scrypt`/`pbkdf2` returning `dklen` bytes state those facts as hypotheses. -/
structure CryptoPrims where
  scryptKey : List Nat → List Nat → Nat → Nat → Nat → Nat → List Nat
  pbkdf2Key : List Nat → List Nat → Nat → Nat → List Nat
  keccak256 : List Nat → List Nat
  aesKeystream : List Nat → List Nat → Nat → Nat

/-- Go `[]byte(s)`: the UTF-8 bytes of a string. -/
def strToBytes (s : String) : List Nat :=
  s.toUTF8.toList.map (fun b => b.toNat)

/-- Package-level constant `lightScryptN = 1 << 12`. -/
def lightScryptN : Nat := 4096

/-- Package-level constant `lightScryptP = 6`. -/
def lightScryptP : Nat := 6

/-- Package-level constant `scryptR = 8`. -/
def scryptR : Nat := 8

/-- Package-level constant `scryptDklen = 32`. -/
def scryptDklen : Nat := 32

/-- Package-level constant `scryptKDFName = "scrypt"`. -/
def scryptKDFName : String := "scrypt"

/-- Go `keystore.Key`: uuid bytes (`uuid.UUID` is a byte slice), address
string, raw private-key bytes. -/
structure Key where
  ID : List Nat
  Address : String
  PrivateKey : List Nat
deriving DecidableEq

/-- Generic JSON value, as far as the version check observes it: Go's
`json.Unmarshal` into `map[string]interface{}` yields a `string`, a `float64`
number, a `bool`, or `nil` for the scalar `version` field (an absent key also
reads back as `nil`).  Keystore versions are integral, so numbers carry an
`Int`. -/
inductive JValue
  | str (s : String)
  | num (n : Int)
  | boolean (b : Bool)
  | null
deriving DecidableEq

/-- Go `cipherparamsJSON`. -/
structure CipherparamsJSON where
  IV : String
deriving DecidableEq

/-- The `kdfparams` object.  Go stores it as `map[string]interface{}`; the
embedding records the entries the code reads: `salt` and `dklen` always,
`n`/`r`/`p` on the scrypt path, `c`/`prf` on the pbkdf2 path (`ensureInt`'s
numeric coercions become typed `Nat` fields). -/
structure KDFParamsJSON where
  salt : String
  dklen : Nat
  n : Nat
  r : Nat
  p : Nat
  c : Nat
  prf : String
deriving DecidableEq

/-- Go `cryptoJSON`. -/
structure CryptoJSON where
  Cipher : String
  CipherText : String
  CipherParams : CipherparamsJSON
  KDF : String
  KDFParams : KDFParamsJSON
  MAC : String
deriving DecidableEq

/-- The keystore document handed to `Read` / produced by `Write`, combining the
typed record `encryptedKeyJSONV3` (address, crypto, id) with the generic view
of its top-level `version` field that `Read`'s first `json.Unmarshal` into
`map[string]interface{}` observes.  Malformed-JSON failures of the two
`json.Unmarshal` calls are outside the model: a document is already parsed. -/
structure KeystoreDoc where
  address : String
  crypto : CryptoJSON
  id : String
  version : JValue
deriving DecidableEq

/-- The error outcomes of the keystore codec, one per distinct `return nil,
err` site: unsupported version, unsupported cipher, a hex-decode failure,
unsupported PBKDF2 PRF, unsupported KDF name, the `ErrDecrypt` MAC mismatch,
and `aes.NewCipher`'s invalid-key-size error. -/
inductive KeystoreError
  | unsupportedVersion
  | unsupportedCipher (cipher : String)
  | malformedHex
  | unsupportedPRF (prf : String)
  | unsupportedKDF (kdf : String)
  | decryptFailed
  | invalidAESKeySize
deriving DecidableEq

/-- pborman/uuid `UUID.String()`: the canonical 8-4-4-4-12 lowercase hex form
for a 16-byte uuid, and `""` for any other length. -/
def uuidToString (id : List Nat) : String :=
  if id.length = 16 then
    String.mk (hexEncodeChars (id.take 4) ++ '-' ::
      (hexEncodeChars ((id.drop 4).take 2) ++ '-' ::
        (hexEncodeChars ((id.drop 6).take 2) ++ '-' ::
          (hexEncodeChars ((id.drop 8).take 2) ++ '-' ::
            hexEncodeChars (id.drop 10)))))
  else ("")

/-- pborman/uuid `Parse` restricted to the canonical 36-character form (the
`urn:` and braced variants are never produced by this codec): 32 hex digits
and 4 dashes decode to 16 bytes; anything else yields `nil`, modelled as `[]`.
Go checks the dash positions 8, 13, 18, 23; the model accepts the dashes
anywhere in the 36 characters, which agrees with Go on every canonical string
`UUID.String()` produces. -/
def uuidParseChars (cs : List Char) : List Nat :=
  if cs.length = 36 then
    match hexDecodeChars (cs.filter (fun c => c != '-')) with
    | some bs => if bs.length = 16 then bs else []
    | none => []
  else []

/-- pborman/uuid `Parse` on the string's characters (see `uuidParseChars`). -/
def uuidParse (s : String) : List Nat :=
  uuidParseChars s.toList

/-- The CTR keystream xor performed by `cipher.StreamWriter`/`XORKeyStream`:
byte `i` of the text is xored with keystream byte `i`. -/
def ctrStream (ks : Nat → Nat) : Nat → List Nat → List Nat
  | _, [] => []
  | i, b :: rest => (b ^^^ ks i) :: ctrStream ks (i + 1) rest

/-- Go `aesCTRXOR(key, inText, iv)`: `aes.NewCipher` rejects key sizes other
than 16/24/32 bytes; otherwise the text is xored against the CTR keystream of
(key, iv). -/
def aesCTRXOR (prims : CryptoPrims) (key inText iv : List Nat) :
    Except KeystoreError (List Nat) :=
  if key.length = 16 ∨ key.length = 24 ∨ key.length = 32 then
    Except.ok (ctrStream (prims.aesKeystream key iv) 0 inText)
  else Except.error KeystoreError.invalidAESKeySize

/-- Go `getKDFKey(cryptoJSON, auth)`: hex-decode the salt (its failure is
returned before anything else), read `dklen`, then dispatch on the `kdf`
name — `scrypt` calls `scrypt.Key` with `n`/`r`/`p`; `pbkdf2` reads `c` and
`prf`, rejects any `prf` other than `"hmac-sha256"` as unsupported, then calls
`pbkdf2.Key` with SHA-256; any other name is an unsupported KDF.  (`scrypt.Key`
rejects some parameter combinations; the abstract `scryptKey` is total, and no
claim exercises that branch.) -/
def getKDFKey (prims : CryptoPrims) (cryptoJSON : CryptoJSON) (auth : String) :
    Except KeystoreError (List Nat) :=
  match hexDecode cryptoJSON.KDFParams.salt with
  | none => Except.error KeystoreError.malformedHex
  | some salt =>
    if cryptoJSON.KDF = scryptKDFName then
      Except.ok (prims.scryptKey (strToBytes auth) salt cryptoJSON.KDFParams.n
        cryptoJSON.KDFParams.r cryptoJSON.KDFParams.p cryptoJSON.KDFParams.dklen)
    else if cryptoJSON.KDF = "pbkdf2" then
      if cryptoJSON.KDFParams.prf ≠ "hmac-sha256" then
        Except.error (KeystoreError.unsupportedPRF cryptoJSON.KDFParams.prf)
      else
        Except.ok (prims.pbkdf2Key (strToBytes auth) salt cryptoJSON.KDFParams.c
          cryptoJSON.KDFParams.dklen)
    else Except.error (KeystoreError.unsupportedKDF cryptoJSON.KDF)

/-- Go `Web3KeyStore.decryptKeyV3(keyProtected, password)`: cipher-name check,
`uuid.Parse` of the id, hex decodes of `mac`/`iv`/`ciphertext`, key derivation,
the keccak-256 MAC check over `derivedKey[16:32] ‖ ciphertext` (mismatch is
`ErrDecrypt`), then AES-CTR decryption with `derivedKey[:16]`.  Go's slicings
`derivedKey[16:32]` and `derivedKey[:16]` panic when the derived key is
shorter than 32 bytes; the model's `take`/`drop` are total, and the theorems
about this path derive the 32-byte length from their hypotheses. -/
def decryptKeyV3 (prims : CryptoPrims) (keyProtected : KeystoreDoc)
    (password : String) : Except KeystoreError (List Nat × List Nat) :=
  if keyProtected.crypto.Cipher ≠ "aes-128-ctr" then
    Except.error (KeystoreError.unsupportedCipher keyProtected.crypto.Cipher)
  else
    match hexDecode keyProtected.crypto.MAC with
    | none => Except.error KeystoreError.malformedHex
    | some mac =>
      match hexDecode keyProtected.crypto.CipherParams.IV with
      | none => Except.error KeystoreError.malformedHex
      | some iv =>
        match hexDecode keyProtected.crypto.CipherText with
        | none => Except.error KeystoreError.malformedHex
        | some cipherText =>
          match getKDFKey prims keyProtected.crypto password with
          | Except.error e => Except.error e
          | Except.ok derivedKey =>
            if prims.keccak256 ((derivedKey.drop 16).take 16 ++ cipherText) ≠ mac then
              Except.error KeystoreError.decryptFailed
            else
              match aesCTRXOR prims (derivedKey.take 16) cipherText iv with
              | Except.error e => Except.error e
              | Except.ok plainText =>
                Except.ok (plainText, uuidParse keyProtected.id)

/-- The version gate at the top of `Read`: `if version, ok :=
kv["version"].(string); ok && version != "3"` — it fires only when the generic
`version` field is a JSON string different from `"3"`; any non-string value
(numbers included) makes the type assertion fail and skips the check. -/
def versionRejected : JValue → Bool
  | JValue.str s => s != "3"
  | _ => false

/-- Go `Web3KeyStore.Read(data, password)`: the generic version check, then
`decryptKeyV3`, then the `Key` assembled from the decrypted bytes, the
record's address, and the parsed id. -/
def Web3KeyStore.Read (prims : CryptoPrims) (doc : KeystoreDoc)
    (password : String) : Except KeystoreError Key :=
  if versionRejected doc.version then Except.error KeystoreError.unsupportedVersion
  else
    match decryptKeyV3 prims doc password with
    | Except.error e => Except.error e
    | Except.ok (keyBytes, keyID) =>
      Except.ok { ID := keyID, Address := doc.address, PrivateKey := keyBytes }

/-- Go `Web3KeyStore.Write(key, password, attrs)`.  The two `GetEntropyCSPRNG`
draws (32-byte salt, 16-byte IV) are the `salt`/`iv` parameters here (entropy
failure panics in Go rather than returning an error, so no error branch
exists for it).  The derived key is
`scrypt.Key(password, salt, scryptN, scryptR, scryptP, scryptDklen)`, where
the `attrs["ScryptN"]`/`attrs["ScryptP"]` overrides in the source assign to
freshly shadowed locals inside their `if` bodies, so the effective parameters
are always the package-level light ones and `attrs` has no observable effect.
NOTE the padding slip the spec flags: `if len(key.PrivateKey) < 32` allocates
and fills a SHADOWED local `keyBytes` that dies at the end of the `if` body,
so the outer `keyBytes := key.PrivateKey` — possibly shorter than 32 bytes —
is what gets encrypted; the model therefore encrypts `key.PrivateKey`
unpadded. -/
def Web3KeyStore.Write (prims : CryptoPrims) (key : Key) (password : String)
    (salt iv : List Nat) : Except KeystoreError KeystoreDoc :=
  match aesCTRXOR prims
      ((prims.scryptKey (strToBytes password) salt lightScryptN scryptR
        lightScryptP scryptDklen).take 16)
      key.PrivateKey iv with
  | Except.error e => Except.error e
  | Except.ok cipherText =>
    Except.ok
      { address := key.Address
        crypto :=
          { Cipher := "aes-128-ctr"
            CipherText := hexEncode cipherText
            CipherParams := { IV := hexEncode iv }
            KDF := scryptKDFName
            KDFParams :=
              { salt := hexEncode salt, dklen := scryptDklen, n := lightScryptN,
                r := scryptR, p := lightScryptP, c := 0, prf := "" }
            MAC := hexEncode (prims.keccak256
              (((prims.scryptKey (strToBytes password) salt lightScryptN scryptR
                lightScryptP scryptDklen).drop 16).take 16 ++ cipherText)) }
        id := uuidToString key.ID
        version := JValue.num 3 }

/-- Concrete primitive instances: enough to evaluate the codec on closed
inputs (the theorems quantifying over `CryptoPrims` are instantiated here in
their witnesses). -/
def trivPrims : CryptoPrims :=
  { scryptKey := fun _ _ _ _ _ dkLen => List.replicate dkLen 0
    pbkdf2Key := fun _ _ _ dkLen => List.replicate dkLen 0
    keccak256 := fun _ => []
    aesKeystream := fun _ _ _ => 0 }

/-- The document `Write` produces when the scrypt derived key has its
advertised 32-byte length (so the AES key-size check passes). -/
def writtenDoc (prims : CryptoPrims) (key : Key) (password : String)
    (salt iv : List Nat) : KeystoreDoc :=
  { address := key.Address
    crypto :=
      { Cipher := "aes-128-ctr"
        CipherText := hexEncode (ctrStream (prims.aesKeystream
          ((prims.scryptKey (strToBytes password) salt lightScryptN scryptR
            lightScryptP scryptDklen).take 16) iv) 0 key.PrivateKey)
        CipherParams := { IV := hexEncode iv }
        KDF := scryptKDFName
        KDFParams :=
          { salt := hexEncode salt, dklen := scryptDklen, n := lightScryptN,
            r := scryptR, p := lightScryptP, c := 0, prf := "" }
        MAC := hexEncode (prims.keccak256
          (((prims.scryptKey (strToBytes password) salt lightScryptN scryptR
            lightScryptP scryptDklen).drop 16).take 16 ++
           ctrStream (prims.aesKeystream
             ((prims.scryptKey (strToBytes password) salt lightScryptN scryptR
               lightScryptP scryptDklen).take 16) iv) 0 key.PrivateKey)) }
    id := uuidToString key.ID
    version := JValue.num 3 }

/-- A complete, otherwise well-formed keystore document whose top-level
`version` field holds the JSON NUMBER 4 (not a string). -/
def versionFourDoc : KeystoreDoc :=
  { address := "addr4"
    crypto :=
      { Cipher := "aes-128-ctr"
        CipherText := "07"
        CipherParams := { IV := "00" }
        KDF := "scrypt"
        KDFParams := { salt := "00", dklen := 32, n := 4096, r := 8, p := 6,
                       c := 0, prf := "" }
        MAC := "" }
    id := "no-uuid"
    version := JValue.num 4 }

/-- The same document with the string version `"2"`. -/
def versionTwoDoc : KeystoreDoc :=
  { versionFourDoc with version := JValue.str ("2") }

/-- A pbkdf2 parameter block whose salt is not valid hex and whose prf is not
`"hmac-sha256"`. -/
def pbkdf2BadSaltCrypto : CryptoJSON :=
  { Cipher := "aes-128-ctr", CipherText := "", CipherParams := { IV := "" },
    KDF := "pbkdf2",
    KDFParams := { salt := "zz", dklen := 32, n := 0, r := 0, p := 0, c := 1,
                   prf := "nope" },
    MAC := "" }

/-- A pbkdf2 parameter block with a well-formed salt and the supported prf. -/
def pbkdf2GoodCrypto : CryptoJSON :=
  { Cipher := "aes-128-ctr", CipherText := "", CipherParams := { IV := "" },
    KDF := "pbkdf2",
    KDFParams := { salt := "00", dklen := 32, n := 0, r := 0, p := 0,
                   c := 262144, prf := "hmac-sha256" },
    MAC := "" }

theorem hexDigitVal_hexDigitChar (n : Nat) (h : n < 16) :
    hexDigitVal (hexDigitChar n) = some n := by
  interval_cases n <;> decide

theorem hexDecodeChars_hexEncodeChars (l : List Nat) (h : ∀ b ∈ l, b < 256) :
    hexDecodeChars (hexEncodeChars l) = some l := by
  induction l with
  | nil => rfl
  | cons b rest ih =>
    have hb : b < 256 := h b (List.mem_cons_self b rest)
    have h1 : b / 16 < 16 := by omega
    have h2 : b % 16 < 16 := by omega
    have hrest := ih (fun x hx => h x (List.mem_cons_of_mem b hx))
    simp only [hexEncodeChars, hexDecodeChars, hexDigitVal_hexDigitChar _ h1,
      hexDigitVal_hexDigitChar _ h2, hrest, Nat.div_add_mod]

theorem hexDecode_hexEncode (l : List Nat) (h : ∀ b ∈ l, b < 256) :
    hexDecode (hexEncode l) = some l := by
  unfold hexDecode hexEncode
  exact hexDecodeChars_hexEncodeChars l h

theorem hexEncodeChars_append (a b : List Nat) :
    hexEncodeChars (a ++ b) = hexEncodeChars a ++ hexEncodeChars b := by
  induction a with
  | nil => rfl
  | cons x rest ih => simp [hexEncodeChars, ih]

theorem length_hexEncodeChars (l : List Nat) :
    (hexEncodeChars l).length = 2 * l.length := by
  induction l with
  | nil => rfl
  | cons x rest ih => simp [hexEncodeChars, ih]; omega

/-! ## Theorems about the NEO transaction engine -/

/-- C1: at the spec scenario `CalcTxInput(1.0, [{value:0.5}, {value:0.7}])` the
code selects both entries but returns total `0.7` — the loop ASSIGNS
`vinvalue = utxo.Value()` instead of accumulating, so the returned value is the
last examined output's value, not the cumulative sum `1.2` the claim states. -/
theorem CalcTxInput_scenario_total_not_cumulative :
    CalcTxInput 1 [⟨"t1", 0, 1/2, 0⟩, ⟨"t2", 0, 7/10, 0⟩] =
      ([⟨"t1", 0, 1/2, 0⟩, ⟨"t2", 0, 7/10, 0⟩], 7/10) ∧
    (CalcTxInput 1 [⟨"t1", 0, 1/2, 0⟩, ⟨"t2", 0, 7/10, 0⟩]).2 ≠ 6/5 := by
  constructor
  · norm_num [CalcTxInput, sortByValue, List.insertionSort, List.orderedInsert,
      calcTxInputLoop]
  · norm_num [CalcTxInput, sortByValue, List.insertionSort, List.orderedInsert,
      calcTxInputLoop]

/-- C6: whenever the selected total reported by `CalcTxInput` for a requested
amount of `1.0` is `1.2`, `CreateSendAssertTx` succeeds and produces exactly
two outputs: the payment output `1.0` to the recipient and the change output
`0.2` back to the sender. -/
theorem CreateSendAssertTx_scenario_two_outputs (assert fromAddr toAddr : String)
    (unspent : List UTXO) (h : (CalcTxInput 1 unspent).2 = 6/5) :
    ∃ tx, CreateSendAssertTx assert fromAddr toAddr 1 unspent = Except.ok tx ∧
      tx.Outputs = [⟨assert, 1, toAddr⟩, ⟨assert, 1/5, fromAddr⟩] := by
  have hlt : ¬ ((6:ℚ)/5 < 1) := by norm_num
  have hgt : (6:ℚ)/5 > 1 := by norm_num
  unfold CreateSendAssertTx
  rw [h, if_neg hlt, if_pos hgt]
  exact ⟨_, rfl, by norm_num⟩

/-- Witness for C6 at the concrete input: the single unspent output of value
`1.2` is selected with total `1.2`. -/
theorem CreateSendAssertTx_scenario_two_outputs_witness :
    ∃ tx, CreateSendAssertTx ("as") ("sender") ("recipient") 1 [⟨"t", 0, 6/5, 0⟩] = Except.ok tx ∧
      tx.Outputs = [⟨"as", 1, "recipient"⟩, ⟨"as", 1/5, "sender"⟩] :=
  CreateSendAssertTx_scenario_two_outputs ("as") ("sender") ("recipient") [⟨"t", 0, 6/5, 0⟩]
    (by norm_num [CalcTxInput, sortByValue, List.insertionSort, List.orderedInsert,
      calcTxInputLoop])

/-- C7 counterexample: `CalcTxInput` sorts the caller's slice in place, so after
the call on the list `[{0.7}, {0.5}]` the caller's list reads `[{0.5}, {0.7}]` —
it is not left unchanged as claimed. -/
theorem CalcTxInputPost_reorders_counterexample :
    CalcTxInputPost 1 [⟨"a", 0, 7/10, 0⟩, ⟨"b", 0, 1/2, 0⟩] ≠
      [⟨"a", 0, 7/10, 0⟩, ⟨"b", 0, 1/2, 0⟩] := by
  norm_num [CalcTxInputPost, sortByValue, List.insertionSort, List.orderedInsert]

/-- C7 amended: selection never alters or drops an element — the caller's list
after `CalcTxInput` or `CreateClaimTx` is a permutation (the in-place sort) of
the list passed in. -/
theorem selection_preserves_elements (amount : ℚ) (unspent : List UTXO) :
    (CalcTxInputPost amount unspent).Perm unspent ∧
    (CreateClaimTxPost unspent).Perm unspent :=
  ⟨List.perm_insertionSort _ unspent, List.perm_insertionSort _ unspent⟩

/-- C8: for every input whose transaction id hex-decodes (after trimming `0x`)
to 32 bytes and whose `Vout` fits in a `uint16`, `WriteBytes` produces exactly
the 32 id bytes reversed followed by the 2-byte little-endian `Vout` — 34 bytes
in total. -/
theorem RawTxInput_WriteBytes_layout (input : RawTxInput) (idBytes : List Nat)
    (hdec : hexDecode (strip0x input.TxID) = some idBytes)
    (hlen : idBytes.length = 32) (hvout : input.Vout < 65536) :
    input.WriteBytes = some (idBytes.reverse ++ [input.Vout % 256, input.Vout / 256]) ∧
    (idBytes.reverse ++ [input.Vout % 256, input.Vout / 256]).length = 34 := by
  constructor
  · unfold RawTxInput.WriteBytes
    rw [hdec]
    have h2 : input.Vout / 256 % 256 = input.Vout / 256 := by omega
    simp [putUint16LE, h2]
  · simp [hlen]

/-- Witness for C8 at the exact spec scenario: txid `0x00..01` (32 bytes, all
zero except the last byte), vout `5`, giving the byte `01`, 31 zero bytes, then
`05 00`. -/
theorem RawTxInput_WriteBytes_layout_witness :
    hexDecode (strip0x ("0x0000000000000000000000000000000000000000000000000000000000000001")) =
      some (List.replicate 31 0 ++ [1]) ∧
    (List.replicate 31 0 ++ [1]).length = 32 ∧ (5 : Nat) < 65536 ∧
    (RawTxInput.WriteBytes
        ⟨"0x0000000000000000000000000000000000000000000000000000000000000001", 5⟩ =
      some ((List.replicate 31 0 ++ [1]).reverse ++ [5 % 256, 5 / 256]) ∧
     ((List.replicate 31 0 ++ [1]).reverse ++ [5 % 256, 5 / 256]).length = 34) :=
  ⟨by decide, by decide, by decide,
    RawTxInput_WriteBytes_layout
      ⟨"0x0000000000000000000000000000000000000000000000000000000000000001", 5⟩
      (List.replicate 31 0 ++ [1]) (by decide) (by decide) (by decide)⟩

/-- C10: whenever `CreateSendAssertTx` succeeds, the transaction carries only
the payment output when the selected total does not strictly exceed the
requested amount (in particular when they are equal), and carries exactly one
additional change output of the strictly positive value `total - amount` when
the total strictly exceeds the amount — so no zero-value change output is ever
produced. -/
theorem CreateSendAssertTx_change_only_when_excess (assert fromAddr toAddr : String)
    (amount : ℚ) (unspent : List UTXO) (tx : RawTx)
    (hok : CreateSendAssertTx assert fromAddr toAddr amount unspent = Except.ok tx) :
    (¬ amount < (CalcTxInput amount unspent).2 →
      tx.Outputs = [⟨assert, amount, toAddr⟩]) ∧
    (amount < (CalcTxInput amount unspent).2 →
      tx.Outputs = [⟨assert, amount, toAddr⟩,
        ⟨assert, (CalcTxInput amount unspent).2 - amount, fromAddr⟩] ∧
      0 < (CalcTxInput amount unspent).2 - amount) := by
  unfold CreateSendAssertTx at hok
  by_cases hlt : (CalcTxInput amount unspent).2 < amount
  · rw [if_pos hlt] at hok
    exact absurd hok (by simp)
  · rw [if_neg hlt] at hok
    injection hok with h
    subst h
    constructor
    · intro hnot
      simp [if_neg hnot]
    · intro hgt
      refine ⟨by simp [if_pos hgt], ?_⟩
      linarith

/-- Witness for C10 at a concrete input where the selected total equals the
requested amount: a single output, no change. -/
theorem CreateSendAssertTx_change_only_when_excess_witness :
    (¬ (1:ℚ) < (CalcTxInput 1 [⟨"x", 0, 1, 0⟩]).2 →
      ({ TxType := 128, Version := 0, Attributes := [], Inputs := [⟨"x", 0⟩],
         Outputs := [⟨"as", 1, "recipient"⟩] } : RawTx).Outputs =
        [⟨"as", 1, "recipient"⟩]) ∧
    ((1:ℚ) < (CalcTxInput 1 [⟨"x", 0, 1, 0⟩]).2 →
      ({ TxType := 128, Version := 0, Attributes := [], Inputs := [⟨"x", 0⟩],
         Outputs := [⟨"as", 1, "recipient"⟩] } : RawTx).Outputs =
        [⟨"as", 1, "recipient"⟩,
         ⟨"as", (CalcTxInput 1 [⟨"x", 0, 1, 0⟩]).2 - 1, "sender"⟩] ∧
      0 < (CalcTxInput 1 [⟨"x", 0, 1, 0⟩]).2 - 1) :=
  CreateSendAssertTx_change_only_when_excess ("as") ("sender") ("recipient") 1
    [⟨"x", 0, 1, 0⟩] _
    (by norm_num [CreateSendAssertTx, CalcTxInput, sortByValue, List.insertionSort,
      List.orderedInsert, calcTxInputLoop, ContractTransaction])

/-! ## Supporting lemmas for the keystore codec -/

theorem aesCTRXOR_ok (prims : CryptoPrims) (key inText iv : List Nat)
    (h : key.length = 16) :
    aesCTRXOR prims key inText iv =
      Except.ok (ctrStream (prims.aesKeystream key iv) 0 inText) := by
  unfold aesCTRXOR
  rw [if_pos (Or.inl h)]

theorem ctrStream_ctrStream (ks : Nat → Nat) (i : Nat) (l : List Nat) :
    ctrStream ks i (ctrStream ks i l) = l := by
  induction l generalizing i with
  | nil => rfl
  | cons b rest ih => simp [ctrStream, Nat.xor_cancel_right, ih]

theorem length_ctrStream (ks : Nat → Nat) (i : Nat) (l : List Nat) :
    (ctrStream ks i l).length = l.length := by
  induction l generalizing i with
  | nil => rfl
  | cons b rest ih => simp [ctrStream, ih]

theorem ctrStream_lt_256 (ks : Nat → Nat) (hks : ∀ j, ks j < 256) (i : Nat)
    (l : List Nat) (hl : ∀ b ∈ l, b < 256) :
    ∀ b ∈ ctrStream ks i l, b < 256 := by
  induction l generalizing i with
  | nil => intro b hb; simp [ctrStream] at hb
  | cons b rest ih =>
    intro x hx
    simp only [ctrStream, List.mem_cons] at hx
    rcases hx with hx | hx
    · subst hx
      have h1 : b < 2 ^ 8 := hl b (List.mem_cons_self _ _)
      have h2 : ks i < 2 ^ 8 := hks i
      exact Nat.xor_lt_two_pow h1 h2
    · exact ih (i + 1) (fun y hy => hl y (List.mem_cons_of_mem _ hy)) x hx

theorem hexDigitChar_ne_dash (n : Nat) (h : n < 16) :
    (hexDigitChar n != '-') = true := by
  interval_cases n <;> decide

theorem mem_hexEncodeChars_ne_dash (l : List Nat) (h : ∀ b ∈ l, b < 256) :
    ∀ c ∈ hexEncodeChars l, (c != '-') = true := by
  induction l with
  | nil => intro c hc; simp [hexEncodeChars] at hc
  | cons b rest ih =>
    intro c hc
    have hb := h b (List.mem_cons_self _ _)
    simp only [hexEncodeChars, List.mem_cons] at hc
    rcases hc with hc | hc | hc
    · subst hc; exact hexDigitChar_ne_dash _ (by omega)
    · subst hc; exact hexDigitChar_ne_dash _ (by omega)
    · exact ih (fun y hy => h y (List.mem_cons_of_mem _ hy)) c hc

theorem filter_hexEncodeChars_ne_dash (l : List Nat) (h : ∀ b ∈ l, b < 256) :
    (hexEncodeChars l).filter (fun c => c != '-') = hexEncodeChars l :=
  List.filter_eq_self.mpr (mem_hexEncodeChars_ne_dash l h)

theorem uuidParse_uuidToString (id : List Nat) (hlen : id.length = 16)
    (hb : ∀ b ∈ id, b < 256) : uuidParse (uuidToString id) = id := by
  have hs4 : ∀ b ∈ id.take 4, b < 256 := fun b h2 => hb b (List.take_subset _ _ h2)
  have hs42 : ∀ b ∈ (id.drop 4).take 2, b < 256 :=
    fun b h2 => hb b (List.drop_subset _ _ (List.take_subset _ _ h2))
  have hs62 : ∀ b ∈ (id.drop 6).take 2, b < 256 :=
    fun b h2 => hb b (List.drop_subset _ _ (List.take_subset _ _ h2))
  have hs82 : ∀ b ∈ (id.drop 8).take 2, b < 256 :=
    fun b h2 => hb b (List.drop_subset _ _ (List.take_subset _ _ h2))
  have hs10 : ∀ b ∈ id.drop 10, b < 256 := fun b h2 => hb b (List.drop_subset _ _ h2)
  have hrecomp : id.take 4 ++ ((id.drop 4).take 2 ++ ((id.drop 6).take 2 ++
      ((id.drop 8).take 2 ++ id.drop 10))) = id := by
    have e1 : (id.drop 8).take 2 ++ id.drop 10 = id.drop 8 := by
      have h10 : (id.drop 8).drop 2 = id.drop 10 := by
        rw [List.drop_drop]
      rw [← h10, List.take_append_drop]
    have e2 : (id.drop 6).take 2 ++ id.drop 8 = id.drop 6 := by
      have h8 : (id.drop 6).drop 2 = id.drop 8 := by
        rw [List.drop_drop]
      rw [← h8, List.take_append_drop]
    have e3 : (id.drop 4).take 2 ++ id.drop 6 = id.drop 4 := by
      have h6 : (id.drop 4).drop 2 = id.drop 6 := by
        rw [List.drop_drop]
      rw [← h6, List.take_append_drop]
    rw [e1, e2, e3, List.take_append_drop]
  unfold uuidToString
  rw [if_pos hlen]
  show uuidParseChars (hexEncodeChars (id.take 4) ++ '-' ::
      (hexEncodeChars ((id.drop 4).take 2) ++ '-' ::
        (hexEncodeChars ((id.drop 6).take 2) ++ '-' ::
          (hexEncodeChars ((id.drop 8).take 2) ++ '-' ::
            hexEncodeChars (id.drop 10))))) = id
  have hlen36 : (hexEncodeChars (id.take 4) ++ '-' ::
      (hexEncodeChars ((id.drop 4).take 2) ++ '-' ::
        (hexEncodeChars ((id.drop 6).take 2) ++ '-' ::
          (hexEncodeChars ((id.drop 8).take 2) ++ '-' ::
            hexEncodeChars (id.drop 10))))).length = 36 := by
    simp [length_hexEncodeChars, hlen]
  unfold uuidParseChars
  rw [if_pos hlen36]
  rw [List.filter_append, List.filter_cons, List.filter_append, List.filter_cons,
    List.filter_append, List.filter_cons, List.filter_append, List.filter_cons]
  simp only [bne_self_eq_false, Bool.false_eq_true, if_false,
    filter_hexEncodeChars_ne_dash _ hs4, filter_hexEncodeChars_ne_dash _ hs42,
    filter_hexEncodeChars_ne_dash _ hs62, filter_hexEncodeChars_ne_dash _ hs82,
    filter_hexEncodeChars_ne_dash _ hs10]
  simp only [← hexEncodeChars_append]
  rw [hrecomp]
  rw [hexDecodeChars_hexEncodeChars id hb]
  simp [hlen]

theorem Write_eq (prims : CryptoPrims) (key : Key) (password : String)
    (salt iv : List Nat)
    (hdk : (prims.scryptKey (strToBytes password) salt lightScryptN scryptR
      lightScryptP scryptDklen).length = 32) :
    Web3KeyStore.Write prims key password salt iv =
      Except.ok (writtenDoc prims key password salt iv) := by
  have h16 : ((prims.scryptKey (strToBytes password) salt lightScryptN scryptR
      lightScryptP scryptDklen).take 16).length = 16 := by
    rw [List.length_take, hdk]
    omega
  unfold Web3KeyStore.Write writtenDoc
  rw [aesCTRXOR_ok prims _ key.PrivateKey iv h16]

/-! ## Theorems about the keystore codec -/

/-- C2: for every key, password and entropy draw, reading back the keystore
document written under the same password succeeds and yields the key exactly —
same uuid, same address string, same private-key bytes.  The hypotheses state
facts the real primitives satisfy: scrypt returns `dklen` bytes, keccak-256
and the AES keystream produce bytes, the entropy draws and the private key are
bytes, and the uuid is a valid 16-byte uuid. -/
theorem Read_Write_roundtrip (prims : CryptoPrims) (key : Key) (password : String)
    (salt iv : List Nat)
    (hscrypt : ∀ pass s n r p dkLen, (prims.scryptKey pass s n r p dkLen).length = dkLen)
    (hkec : ∀ l, ∀ b ∈ prims.keccak256 l, b < 256)
    (hks : ∀ k v i, prims.aesKeystream k v i < 256)
    (hsalt : ∀ b ∈ salt, b < 256) (hiv : ∀ b ∈ iv, b < 256)
    (hpk : ∀ b ∈ key.PrivateKey, b < 256)
    (hid : key.ID.length = 16) (hidb : ∀ b ∈ key.ID, b < 256) :
    ∃ doc, Web3KeyStore.Write prims key password salt iv = Except.ok doc ∧
      Web3KeyStore.Read prims doc password = Except.ok key := by
  have hdk : (prims.scryptKey (strToBytes password) salt lightScryptN scryptR
      lightScryptP scryptDklen).length = 32 :=
    (hscrypt _ _ _ _ _ _).trans rfl
  have h16 : ((prims.scryptKey (strToBytes password) salt lightScryptN scryptR
      lightScryptP scryptDklen).take 16).length = 16 := by
    rw [List.length_take, hdk]
    omega
  have hct : ∀ b ∈ ctrStream (prims.aesKeystream ((prims.scryptKey
      (strToBytes password) salt lightScryptN scryptR lightScryptP
      scryptDklen).take 16) iv) 0 key.PrivateKey, b < 256 :=
    ctrStream_lt_256 _ (fun j => hks _ _ j) 0 _ hpk
  refine ⟨_, Write_eq prims key password salt iv hdk, ?_⟩
  unfold Web3KeyStore.Read decryptKeyV3 getKDFKey writtenDoc
  simp only [versionRejected, Bool.false_eq_true, if_false, ne_eq,
    not_true_eq_false, ite_false, ite_true, eq_self_iff_true,
    hexDecode_hexEncode _ (hkec _), hexDecode_hexEncode iv hiv,
    hexDecode_hexEncode _ hct, hexDecode_hexEncode salt hsalt,
    aesCTRXOR_ok _ _ _ _ h16, ctrStream_ctrStream,
    uuidParse_uuidToString key.ID hid hidb]

/-- Witness for C2 at a concrete key, password and entropy draw, under the
concrete primitives. -/
theorem Read_Write_roundtrip_witness :
    ∃ doc, Web3KeyStore.Write trivPrims ⟨List.range 16, "addr", [1, 2, 250]⟩
        ("pw") [] [] = Except.ok doc ∧
      Web3KeyStore.Read trivPrims doc ("pw") =
        Except.ok ⟨List.range 16, "addr", [1, 2, 250]⟩ :=
  Read_Write_roundtrip trivPrims ⟨List.range 16, "addr", [1, 2, 250]⟩ ("pw") [] []
    (fun pass s n r p dkLen => by simp [trivPrims])
    (fun l b hb => absurd hb (List.not_mem_nil b))
    (fun k v i => by show (0 : Nat) < 256; decide)
    (fun b hb => absurd hb (List.not_mem_nil b))
    (fun b hb => absurd hb (List.not_mem_nil b))
    (by decide) (by decide) (by decide)

/-- C4 (the padding slip): writing a key whose private scalar is 31 bytes
produces a ciphertext of 31 bytes — the plaintext is the unpadded private-key
slice, because the `len < 32` branch fills a shadowed local that is then
discarded, so the encrypted plaintext is NOT always 32 bytes as claimed. -/
theorem Write_short_key_encrypts_unpadded :
    ∃ doc, Web3KeyStore.Write trivPrims ⟨List.range 16, "addr", List.replicate 31 7⟩
        ("pw") [] [] = Except.ok doc ∧
      (hexDecode doc.crypto.CipherText).map List.length = some 31 ∧ (31 : Nat) ≠ 32 := by
  refine ⟨_, Write_eq trivPrims ⟨List.range 16, "addr", List.replicate 31 7⟩ ("pw") [] []
    (by simp [trivPrims, scryptDklen]), ?_, by decide⟩
  have hks0 : ∀ j, trivPrims.aesKeystream ((trivPrims.scryptKey (strToBytes ("pw")) []
      lightScryptN scryptR lightScryptP scryptDklen).take 16) [] j < 256 :=
    fun j => by show (0 : Nat) < 256; decide
  have hpk7 : ∀ b ∈ List.replicate 31 7, b < 256 := by decide
  have hct := ctrStream_lt_256 _ hks0 0 _ hpk7
  simp only [writtenDoc, hexDecode_hexEncode _ hct, Option.map_some', length_ctrStream,
    List.length_replicate]

/-- C5 counterexample: on a document whose version field is the number 4
(≠ 3), `Read` does NOT fail with the unsupported-version error — the
`.(string)` type assertion fails on non-strings and the whole check is
skipped; under the concrete primitives this document then decrypts fully and
`Read` returns a Key. -/
theorem Read_numeric_version_not_rejected :
    Web3KeyStore.Read trivPrims versionFourDoc ("pw") =
      Except.ok { ID := [], Address := "addr4", PrivateKey := [7] } := rfl

/-- C5 amended: the unsupported-version rejection fires exactly when the
top-level version field is a JSON STRING other than `"3"`. -/
theorem Read_rejects_string_version (prims : CryptoPrims) (doc : KeystoreDoc)
    (password : String) (s : String) (hv : doc.version = JValue.str s)
    (hs : s ≠ "3") :
    Web3KeyStore.Read prims doc password =
      Except.error KeystoreError.unsupportedVersion := by
  unfold Web3KeyStore.Read
  rw [hv]
  simp only [versionRejected]
  rw [if_pos (bne_iff_ne.mpr hs)]

/-- Witness for the amended C5 at the concrete string version `"2"`. -/
theorem Read_rejects_string_version_witness :
    versionTwoDoc.version = JValue.str ("2") ∧ "2" ≠ "3" ∧
    Web3KeyStore.Read trivPrims versionTwoDoc ("pw") =
      Except.error KeystoreError.unsupportedVersion :=
  ⟨rfl, by decide,
    Read_rejects_string_version trivPrims versionTwoDoc ("pw") ("2") rfl (by decide)⟩

/-- C9 counterexample: the salt hex decode happens BEFORE the prf check, so a
parameter set with malformed salt and `prf = "nope"` fails with the hex-decode
error, not the unsupported-PRF error the claim promises for every such set. -/
theorem getKDFKey_bad_salt_before_prf :
    getKDFKey trivPrims pbkdf2BadSaltCrypto ("pw") =
      Except.error KeystoreError.malformedHex ∧
    getKDFKey trivPrims pbkdf2BadSaltCrypto ("pw") ≠
      Except.error (KeystoreError.unsupportedPRF ("nope")) := by
  constructor
  · rfl
  · intro h
    rw [show getKDFKey trivPrims pbkdf2BadSaltCrypto ("pw") =
      Except.error KeystoreError.malformedHex from rfl] at h
    simp at h

/-- C9 amended: on the pbkdf2 path with a well-formed salt, any prf other
than `"hmac-sha256"` fails with the unsupported-PRF error and no key is
derived, and `prf = "hmac-sha256"` returns the PBKDF2-HMAC-SHA256 key, of
`dklen` bytes (pbkdf2 returning its requested length is a hypothesis the real
primitive satisfies). -/
theorem getKDFKey_pbkdf2_prf_gate (prims : CryptoPrims) (cj : CryptoJSON)
    (auth : String) (salt : List Nat)
    (hkdf : cj.KDF = "pbkdf2")
    (hsalt : hexDecode cj.KDFParams.salt = some salt)
    (hlen : ∀ pass s c dkLen, (prims.pbkdf2Key pass s c dkLen).length = dkLen) :
    (cj.KDFParams.prf ≠ "hmac-sha256" →
      getKDFKey prims cj auth =
        Except.error (KeystoreError.unsupportedPRF cj.KDFParams.prf)) ∧
    (cj.KDFParams.prf = "hmac-sha256" →
      getKDFKey prims cj auth =
        Except.ok (prims.pbkdf2Key (strToBytes auth) salt cj.KDFParams.c
          cj.KDFParams.dklen) ∧
      ∀ k, getKDFKey prims cj auth = Except.ok k →
        k.length = cj.KDFParams.dklen) := by
  simp only [getKDFKey, hsalt, hkdf]
  rw [if_neg (show ¬ (("pbkdf2" : String) = scryptKDFName) from by decide),
    if_pos trivial]
  constructor
  · intro hne
    rw [if_pos hne]
  · intro heq
    have hnn : ¬ cj.KDFParams.prf ≠ "hmac-sha256" := fun hne => hne heq
    rw [if_neg hnn]
    refine ⟨rfl, ?_⟩
    intro k hk
    injection hk with hk2
    rw [← hk2]
    exact hlen _ _ _ _

/-- Witness for the amended C9 at the concrete supported parameter block. -/
theorem getKDFKey_pbkdf2_prf_gate_witness :
    (pbkdf2GoodCrypto.KDFParams.prf ≠ "hmac-sha256" →
      getKDFKey trivPrims pbkdf2GoodCrypto ("pw") =
        Except.error (KeystoreError.unsupportedPRF pbkdf2GoodCrypto.KDFParams.prf)) ∧
    (pbkdf2GoodCrypto.KDFParams.prf = "hmac-sha256" →
      getKDFKey trivPrims pbkdf2GoodCrypto ("pw") =
        Except.ok (trivPrims.pbkdf2Key (strToBytes ("pw")) [0]
          pbkdf2GoodCrypto.KDFParams.c pbkdf2GoodCrypto.KDFParams.dklen) ∧
      ∀ k, getKDFKey trivPrims pbkdf2GoodCrypto ("pw") = Except.ok k →
        k.length = pbkdf2GoodCrypto.KDFParams.dklen) :=
  getKDFKey_pbkdf2_prf_gate trivPrims pbkdf2GoodCrypto ("pw") [0] rfl (by decide)
    (fun pass s c dkLen => by simp [trivPrims])

